import Mathlib

/-!
Shallow embedding of `src/backend/server.js` (Bilinapp chat backend).

The document store (MongoDB via mongoose) is modelled as two in-memory
collections in natural (insertion) order, plus a counter generating fresh
record identifiers.  `findOne` on a query is `List.find?` with the query
predicate; `save` on a new document appends it.  bcrypt is modelled by a
concrete salted encoding: `bcrypt.hash(p, 10)` with a given salt produces
the string `"$2b$10$" ++ toString salt ++ "$" ++ p`, and `bcrypt.compare`
re-derives the salt section from the stored hash and recomputes, exactly
the shape of the real algorithm (collision-freedom of the digest is the
usual idealisation).  JavaScript `toLowerCase` is modelled by mapping
`Char.toLower` over the characters (ASCII case folding, which covers every
string appearing in the system).  The realtime (socket.io) layer is
modelled by the set of currently connected socket identifiers; `io.emit`
delivers one payload to each of them.  Whether `message.save()` throws is
an environmental input, passed to the handler as an explicit flag.
-/

namespace Bilinapp

/-- A stored account document (`userSchema`, server.js lines 34-40).
`id` models the store-generated `_id`; `password` holds the bcrypt hash. -/
structure User where
  id : Nat
  firstName : String
  lastName : String
  email : String
  password : String
  role : String
deriving DecidableEq, Repr

/-- A stored chat message document (`messageSchema`, server.js lines 42-47).
`sender`/`receiver` are account identifiers; `timestamp` defaults to the
creation time (`Date.now`). -/
structure Message where
  id : Nat
  sender : Nat
  receiver : Nat
  content : String
  timestamp : Nat
deriving DecidableEq, Repr

/-- The document store: the `User` and `Message` collections in natural
(insertion) order, plus the next fresh `_id`. -/
structure Store where
  users : List User
  messages : List Message
  nextId : Nat
deriving DecidableEq, Repr

def emptyStore : Store := { users := [], messages := [], nextId := 0 }

/-- JavaScript `String.prototype.toLowerCase`, modelled as ASCII case
folding character by character. -/
def lowerStr (s : String) : String := ⟨s.data.map Char.toLower⟩

/-- `bcrypt.hash(p, 10)` with an explicit salt drawn from the environment:
version/cost prefix, then the salt section, then the digest (idealised as
the password itself, the standard collision-free idealisation). -/
def bcryptHash (salt : Nat) (p : String) : String :=
  "$2b$10$" ++ toString salt ++ "$" ++ p

/-- The salt section `bcrypt.compare` recovers from a stored hash `h` when
checking password `p`: everything after the 7-character prefix and before
the final `"$" ++ p` section. -/
def bcryptSaltPart (p h : String) : List Char :=
  (h.data.drop 7).take ((h.data.drop 7).length - (p.data.length + 1))

/-- `bcrypt.compare(p, h)`: recover the salt section from `h`, recompute
the hash of `p` with it, and compare with `h`. -/
def bcryptCompare (p h : String) : Bool :=
  h.data == "$2b$10$".data ++ bcryptSaltPart p h ++ '$' :: p.data

/-- HTTP response of `POST /signup`: a status code and a message body with
no other fields (the success body is `{ message }` only). -/
structure SignupResponse where
  status : Nat
  message : String
deriving DecidableEq, Repr

/-- HTTP response of `POST /login`: status, message, and the user record
included on success (`{ message, user }`). -/
structure LoginResponse where
  status : Nat
  message : String
  user : Option User
deriving DecidableEq, Repr

/-- `app.post('/signup')` (server.js lines 82-107): reject with
400 "Email already exists" when `findOne({ email })` hits (exact match on
the submitted email, no case normalisation); otherwise hash the password
and save a new account, answering 201 with only a message. -/
def signup (s : Store) (salt : Nat) (firstName lastName email password role : String) :
    SignupResponse × Store :=
  match s.users.find? (fun u => u.email == email) with
  | some _ => ({ status := 400, message := "Email already exists" }, s)
  | none =>
    let newUser : User :=
      { id := s.nextId, firstName := firstName, lastName := lastName,
        email := email, password := bcryptHash salt password, role := role }
    ({ status := 201, message := "User created successfully" },
     { s with users := s.users ++ [newUser], nextId := s.nextId + 1 })

/-- `app.post('/login')` (server.js lines 110-132): look up by the
lowercased submitted email (exact match against the stored email), then
compare the submitted password against the stored hash; any failure is
400 "Invalid email or password", success is 200 with the full record. -/
def login (s : Store) (email password : String) : LoginResponse :=
  match s.users.find? (fun u => u.email == lowerStr email) with
  | none => { status := 400, message := "Invalid email or password", user := none }
  | some u =>
    if bcryptCompare password u.password then
      { status := 200, message := "Login successful", user := some u }
    else
      { status := 400, message := "Invalid email or password", user := none }

/-- One entry of the `defaultUsers` seed list (server.js lines 55-59). -/
structure SeedUser where
  firstName : String
  lastName : String
  email : String
  password : String
  role : String
deriving DecidableEq, Repr

def dAdmin : SeedUser :=
  { firstName := "Admin", lastName := "User", email := "admin@example.com",
    password := "admin123", role := "Admin" }

def dTeacher : SeedUser :=
  { firstName := "Teacher", lastName := "User", email := "teacher@example.com",
    password := "teacher123", role := "Teacher" }

def dParent : SeedUser :=
  { firstName := "Parent", lastName := "User", email := "parent@example.com",
    password := "parent123", role := "Parent" }

/-- The fixed seed list of `initializeDefaultUsers`. -/
def defaultUsers : List SeedUser := [dAdmin, dTeacher, dParent]

/-- One iteration of the `initializeDefaultUsers` loop (server.js lines
61-73): if no account with the seed email exists, hash the seed password
and save a new account; otherwise leave the store untouched. -/
def seedOne (salt : Nat) (s : Store) (d : SeedUser) : Store :=
  match s.users.find? (fun u => u.email == d.email) with
  | some _ => s
  | none =>
    { s with
      users := s.users ++
        [{ id := s.nextId, firstName := d.firstName, lastName := d.lastName,
           email := d.email, password := bcryptHash salt d.password, role := d.role }],
      nextId := s.nextId + 1 }

/-- `initializeDefaultUsers` (server.js lines 54-74): run the seed loop
over the fixed list. -/
def initializeDefaultUsers (salt : Nat) (s : Store) : Store :=
  defaultUsers.foldl (seedOne salt) s

/-- The projection `'firstName lastName email role'` used by
`GET /chat/users`: the four selected fields and nothing else (in
particular no password hash). -/
structure PublicUser where
  firstName : String
  lastName : String
  email : String
  role : String
deriving DecidableEq, Repr

def projectUser (u : User) : PublicUser :=
  { firstName := u.firstName, lastName := u.lastName, email := u.email, role := u.role }

/-- `app.get('/chat/users')` (server.js lines 135-143):
`User.find({}, 'firstName lastName email role')`. -/
def listAllUsers (s : Store) : List PublicUser :=
  s.users.map projectUser

/-- `app.get('/chat/teachers')` (server.js lines 146-154):
`User.find({ role: 'Teacher' })` with no field projection. -/
def getTeachers (s : Store) : List User :=
  s.users.filter (fun u => u.role == "Teacher")

/-- `app.get('/chat/parents')` (server.js lines 157-165):
`User.find({ role: 'Parent' })` with no field projection. -/
def getParents (s : Store) : List User :=
  s.users.filter (fun u => u.role == "Parent")

/-- The `{ firstName, lastName }` record substituted by
`.populate('sender receiver', 'firstName lastName')`. -/
structure NameCard where
  firstName : String
  lastName : String
deriving DecidableEq, Repr

/-- A message as returned by `GET /chat/messages/:otherUserId`, with the
sender/receiver references expanded (a dangling reference populates to
nothing, as mongoose yields null there). -/
structure PopulatedMessage where
  sender : Option NameCard
  receiver : Option NameCard
  content : String
  timestamp : Nat
deriving DecidableEq, Repr

def populateRef (s : Store) (uid : Nat) : Option NameCard :=
  (s.users.find? (fun u => u.id == uid)).map
    (fun u => { firstName := u.firstName, lastName := u.lastName })

/-- The `$or` filter of the messages query: either direction between the
two identifiers. -/
def betweenPred (a b : Nat) (m : Message) : Bool :=
  (m.sender == a && m.receiver == b) || (m.sender == b && m.receiver == a)

def populateMsg (s : Store) (m : Message) : PopulatedMessage :=
  { sender := populateRef s m.sender, receiver := populateRef s m.receiver,
    content := m.content, timestamp := m.timestamp }

/-- `app.get('/chat/messages/:otherUserId')` (server.js lines 168-185):
filter the message collection by the `$or` of the two directions, then
populate both references. -/
def getMessages (s : Store) (currentUserId otherUserId : Nat) : List PopulatedMessage :=
  (s.messages.filter (betweenPred currentUserId otherUserId)).map (populateMsg s)

/-- The payload of the `receiveMessage` broadcast (server.js lines
200-205). -/
structure Emission where
  senderId : Nat
  receiverId : Nat
  content : String
  timestamp : Nat
deriving DecidableEq, Repr

/-- Everything the `sendMessage` handler produces: the store afterwards,
the client-bound emissions `(socket id, payload)` (its only client-visible
output), and whether `console.error` ran in the catch block. -/
structure SendOutcome where
  store : Store
  emits : List (Nat × Emission)
  errorLogged : Bool
deriving DecidableEq, Repr

/-- `socket.on('sendMessage')` (server.js lines 191-209): build a message
with the store-generated timestamp and save it; if the save throws
(`saveFails`), only log — nothing is persisted or emitted; otherwise
`io.emit` the payload to every currently connected socket. -/
def handleSendMessage (s : Store) (connected : List Nat) (senderId receiverId : Nat)
    (content : String) (now : Nat) (saveFails : Bool) : SendOutcome :=
  if saveFails then
    { store := s, emits := [], errorLogged := true }
  else
    let msg : Message :=
      { id := s.nextId, sender := senderId, receiver := receiverId,
        content := content, timestamp := now }
    { store := { s with messages := s.messages ++ [msg], nextId := s.nextId + 1 },
      emits := connected.map (fun c =>
        (c, { senderId := senderId, receiverId := receiverId,
              content := content, timestamp := msg.timestamp })),
      errorLogged := false }

/-- The transient realtime state: the store plus the connected sockets. -/
structure RealtimeState where
  store : Store
  connected : List Nat
deriving DecidableEq, Repr

/-- `io.on('connection')` (server.js line 188): register the socket; the
store is untouched. -/
def handleConnect (st : RealtimeState) (sid : Nat) : RealtimeState :=
  { st with connected := st.connected ++ [sid] }

/-- `socket.on('disconnect')` (server.js lines 211-213): drop the socket;
the store is untouched. -/
def handleDisconnect (st : RealtimeState) (sid : Nat) : RealtimeState :=
  { st with connected := st.connected.erase sid }

/-- Sample account whose stored email is all lowercase. -/
def uLow : User :=
  { id := 0, firstName := "Jane", lastName := "Doe", email := "jane@x.com",
    password := bcryptHash 7 "pw1", role := "Teacher" }

/-- Sample account whose stored email contains an uppercase letter. -/
def uUpper : User :=
  { id := 0, firstName := "Jane", lastName := "Doe", email := "Jane@x.com",
    password := bcryptHash 7 "pw1", role := "Teacher" }

def sLow : Store := { users := [uLow], messages := [], nextId := 1 }

def sUpper : Store := { users := [uUpper], messages := [], nextId := 1 }

/-- Sample store with two accounts and two messages for the conversation
and directory witnesses. -/
def uBob : User :=
  { id := 1, firstName := "Bob", lastName := "Smith", email := "bob@x.com",
    password := bcryptHash 3 "pw2", role := "Parent" }

def mAB : Message := { id := 2, sender := 0, receiver := 1, content := "hi", timestamp := 10 }

def mBA : Message := { id := 3, sender := 1, receiver := 0, content := "yo", timestamp := 11 }

def sChat : Store := { users := [uLow, uBob], messages := [mAB, mBA], nextId := 4 }

/-! Generic helper lemmas. -/

theorem uint32_le_iff_toNat_le (a b : UInt32) : a ≤ b ↔ a.toNat ≤ b.toNat := by
  rw [UInt32.le_def, BitVec.le_def]; rfl

theorem char_ofNat_isUpper_false (n : Nat) (h1 : 65 ≤ n) (h2 : n ≤ 90) :
    (Char.ofNat (n + 32)).isUpper = false := by
  have hvalid : (n + 32).isValidChar := Or.inl (by omega)
  rw [Char.ofNat, dif_pos hvalid]
  unfold Char.ofNatAux Char.isUpper
  simp only [Bool.and_eq_false_imp, decide_eq_true_eq, decide_eq_false_iff_not]
  intro hge
  rw [uint32_le_iff_toNat_le]
  show ¬ (UInt32.mk (BitVec.ofNatLt (n + 32) _)).toNat ≤ (90 : UInt32).toNat
  simp [UInt32.toNat, BitVec.toNat_ofNatLt]
  omega

/-- ASCII case folding never yields an uppercase letter. -/
theorem toLower_not_upper (c : Char) : (Char.toLower c).isUpper = false := by
  by_cases h : c.toNat ≥ 65 ∧ c.toNat ≤ 90
  · have heq : Char.toLower c = Char.ofNat (c.toNat + 32) := by
      unfold Char.toLower
      exact if_pos h
    rw [heq]
    exact char_ofNat_isUpper_false c.toNat h.1 h.2
  · have heq : Char.toLower c = c := by
      unfold Char.toLower
      exact if_neg h
    rw [heq]
    unfold Char.isUpper
    simp only [Bool.and_eq_false_imp, decide_eq_true_eq, decide_eq_false_iff_not]
    intro hge hle
    exact h ⟨(uint32_le_iff_toNat_le 65 c.val).mp hge, (uint32_le_iff_toNat_le c.val 90).mp hle⟩

/-- A stored value that passes `bcrypt.compare` against `p` is a hash
string, never the raw password `p` itself. -/
theorem bcryptCompare_ne_raw {p h : String} (hc : bcryptCompare p h = true) : h ≠ p := by
  intro he
  unfold bcryptCompare at hc
  rw [beq_iff_eq] at hc
  have hlen := congrArg List.length hc
  rw [he] at hlen
  simp [List.length_append] at hlen
  omega

/-- `findOne` on an email query returns the unique account carrying that
email, given the store's email-uniqueness invariant. -/
theorem find?_email_eq (s : Store) (u : User) (q : String)
    (hu : u ∈ s.users) (hq : u.email = q)
    (hd : s.users.Pairwise (fun a b => a.email ≠ b.email)) :
    s.users.find? (fun v => v.email == q) = some u := by
  have hs : (s.users.find? (fun v => v.email == q)).isSome := by
    rw [List.find?_isSome]
    exact ⟨u, hu, by simp [hq]⟩
  obtain ⟨w, hw⟩ := Option.isSome_iff_exists.mp hs
  have hwm := List.mem_of_find?_eq_some hw
  have hwq : w.email = q := by simpa using List.find?_some hw
  by_cases hwu : w = u
  · rwa [hwu] at hw
  · exfalso
    have hsymm : Symmetric (fun a b : User => a.email ≠ b.email) := by
      intro a b hne he
      exact hne he.symm
    exact (List.Pairwise.forall hsymm hd hwm hu hwu) (hwq.trans hq.symm)

/-- The login result's `user` field is `some u` exactly when `findOne` on
the lowercased email hit `u` and the hash comparison passed. -/
theorem login_user_iff (s : Store) (e p : String) (u : User) :
    (login s e p).user = some u ↔
      (s.users.find? (fun v => v.email == lowerStr e) = some u ∧
       bcryptCompare p u.password = true) := by
  unfold login
  cases hf : s.users.find? (fun v => v.email == lowerStr e) with
  | none => simp
  | some w =>
    by_cases hc : bcryptCompare p w.password
    · simp only [if_pos hc]
      constructor
      · intro hsome
        have hw : w = u := by simpa using hsome
        subst hw
        exact ⟨rfl, hc⟩
      · rintro ⟨h1, _⟩
        have hw : w = u := Option.some.inj h1
        subst hw
        rfl
    · simp only [if_neg hc]
      constructor
      · intro hsome
        simp at hsome
      · rintro ⟨h1, h2⟩
        have hw : w = u := Option.some.inj h1
        subst hw
        exact absurd h2 hc

/-- Whenever login's `user` field is set, the whole response is the
200 success response carrying that user. -/
theorem login_success_shape (s : Store) (e p : String) (u : User)
    (h : (login s e p).user = some u) :
    login s e p = { status := 200, message := "Login successful", user := some u } := by
  obtain ⟨hf, hc⟩ := (login_user_iff s e p u).mp h
  unfold login
  rw [hf]
  simp [hc]

/-- When no stored account matches both the lowercased email and the hash
comparison, login answers the 400 invalid-credentials response. -/
theorem login_invalid_shape (s : Store) (e p : String)
    (h : ∀ v ∈ s.users, lowerStr e = v.email → bcryptCompare p v.password = false) :
    login s e p = { status := 400, message := "Invalid email or password", user := none } := by
  unfold login
  cases hf : s.users.find? (fun v => v.email == lowerStr e) with
  | none => rfl
  | some w =>
    have hwm := List.mem_of_find?_eq_some hf
    have hwq : w.email = lowerStr e := by simpa using List.find?_some hf
    simp [h w hwm hwq.symm]

/-- Signup when no stored account carries the submitted email: a new
account with the salted hash is appended and the response is 201 with
only a message. -/
theorem signup_of_fresh (s : Store) (salt : Nat) (fn ln e p r : String)
    (h : ∀ u ∈ s.users, u.email ≠ e) :
    signup s salt fn ln e p r =
      ({ status := 201, message := "User created successfully" },
       { users := s.users ++
           [{ id := s.nextId, firstName := fn, lastName := ln, email := e,
              password := bcryptHash salt p, role := r }],
         messages := s.messages, nextId := s.nextId + 1 }) := by
  unfold signup
  have hf : s.users.find? (fun u => u.email == e) = none := by
    rw [List.find?_eq_none]
    intro x hx
    simp [h x hx]
  rw [hf]

/-- Signup when some stored account already carries the submitted email:
the 400 duplicate response, and the store is returned unchanged. -/
theorem signup_of_dup (s : Store) (salt : Nat) (fn ln e p r : String)
    (h : ∃ u ∈ s.users, u.email = e) :
    signup s salt fn ln e p r = ({ status := 400, message := "Email already exists" }, s) := by
  unfold signup
  have hs : (s.users.find? (fun u => u.email == e)).isSome := by
    rw [List.find?_isSome]
    obtain ⟨u, hu, he⟩ := h
    exact ⟨u, hu, by simp [he]⟩
  obtain ⟨w, hw⟩ := Option.isSome_iff_exists.mp hs
  rw [hw]

/-- `seedOne` only ever appends to the user collection and leaves the
message collection alone. -/
theorem seedOne_users_append (salt : Nat) (s : Store) (d : SeedUser) :
    ∃ ex, (seedOne salt s d).users = s.users ++ ex ∧
      (seedOne salt s d).messages = s.messages := by
  unfold seedOne
  cases hf : s.users.find? (fun u => u.email == d.email) with
  | some w => exact ⟨[], by simp, rfl⟩
  | none => exact ⟨_, rfl, rfl⟩

/-- The seed loop body skips a seed entry whose email is already stored. -/
theorem seedOne_of_present (salt : Nat) (s : Store) (d : SeedUser)
    (h : (s.users.find? (fun u => u.email == d.email)).isSome) :
    seedOne salt s d = s := by
  obtain ⟨w, hw⟩ := Option.isSome_iff_exists.mp h
  unfold seedOne
  rw [hw]

/-- The seed loop body creates the account for an absent seed email. -/
theorem seedOne_of_absent (salt : Nat) (s : Store) (d : SeedUser)
    (hf : s.users.find? (fun u => u.email == d.email) = none) :
    seedOne salt s d =
      { s with
        users := s.users ++
          [{ id := s.nextId, firstName := d.firstName, lastName := d.lastName,
             email := d.email, password := bcryptHash salt d.password, role := d.role }],
        nextId := s.nextId + 1 } := by
  unfold seedOne
  rw [hf]

theorem find?_append_singleton_self (l : List User) (u : User) (q : String)
    (h : u.email = q) : ((l ++ [u]).find? (fun v => v.email == q)).isSome := by
  rw [List.find?_isSome]
  exact ⟨u, by simp, by simp [h]⟩

/-- After seeding one entry its email is present. -/
theorem seedOne_present_self (salt : Nat) (s : Store) (d : SeedUser) :
    ((seedOne salt s d).users.find? (fun u => u.email == d.email)).isSome := by
  by_cases h : (s.users.find? (fun u => u.email == d.email)).isSome
  · rw [seedOne_of_present salt s d h]
    exact h
  · have hf : s.users.find? (fun u => u.email == d.email) = none :=
      Option.not_isSome_iff_eq_none.mp h
    rw [seedOne_of_absent salt s d hf]
    exact find?_append_singleton_self s.users _ d.email rfl

/-- Seeding one entry preserves the presence of any email. -/
theorem seedOne_preserves_present (salt : Nat) (s : Store) (d : SeedUser) (q : String)
    (h : (s.users.find? (fun u => u.email == q)).isSome) :
    ((seedOne salt s d).users.find? (fun u => u.email == q)).isSome := by
  obtain ⟨ex, hex, _⟩ := seedOne_users_append salt s d
  obtain ⟨w, hw⟩ := Option.isSome_iff_exists.mp h
  rw [hex, List.find?_append, hw]
  rfl

/-- `initializeDefaultUsers` is the seed loop body folded over the three
fixed entries. -/
theorem init_eq (salt : Nat) (s : Store) :
    initializeDefaultUsers salt s =
      seedOne salt (seedOne salt (seedOne salt s dAdmin) dTeacher) dParent := rfl

/-- After a seeding run every seed email is present. -/
theorem init_present (salt : Nat) (s : Store) (d : SeedUser) (hd : d ∈ defaultUsers) :
    ((initializeDefaultUsers salt s).users.find? (fun u => u.email == d.email)).isSome := by
  rw [init_eq]
  simp only [defaultUsers, List.mem_cons, List.not_mem_nil, or_false] at hd
  rcases hd with rfl | rfl | rfl
  · exact seedOne_preserves_present _ _ _ _
      (seedOne_preserves_present _ _ _ _ (seedOne_present_self _ _ _))
  · exact seedOne_preserves_present _ _ _ _ (seedOne_present_self _ _ _)
  · exact seedOne_present_self _ _ _

/-- A seeding run only ever appends accounts and leaves messages alone. -/
theorem init_users_append (salt : Nat) (s : Store) :
    ∃ ex, (initializeDefaultUsers salt s).users = s.users ++ ex ∧
      (initializeDefaultUsers salt s).messages = s.messages := by
  obtain ⟨e1, h1u, h1m⟩ := seedOne_users_append salt s dAdmin
  obtain ⟨e2, h2u, h2m⟩ := seedOne_users_append salt (seedOne salt s dAdmin) dTeacher
  obtain ⟨e3, h3u, h3m⟩ :=
    seedOne_users_append salt (seedOne salt (seedOne salt s dAdmin) dTeacher) dParent
  refine ⟨e1 ++ (e2 ++ e3), ?_, ?_⟩
  · rw [init_eq, h3u, h2u, h1u, List.append_assoc, List.append_assoc]
  · rw [init_eq, h3m, h2m, h1m]

/-! Claim theorems. -/

/-- Claim C1 (amended): for every stored account, under the store's
email-uniqueness invariant, `login(email, password)` succeeds as that
account if and only if the lowercased given email exactly equals the
account's stored email (not a case-insensitive match of the two) and the
given password passes the bcrypt comparison against the stored hash; when
no stored account satisfies both conditions it fails with
400 "Invalid email or password"; and the success response carries the
stored record of a stored account, whose password field is never the raw
submitted password. -/
theorem login_correct (s : Store) (u : User) (e p : String)
    (hu : u ∈ s.users)
    (hd : s.users.Pairwise (fun a b => a.email ≠ b.email)) :
    ((login s e p).user = some u ↔
      (lowerStr e = u.email ∧ bcryptCompare p u.password = true)) ∧
    ((∀ v ∈ s.users, lowerStr e = v.email → bcryptCompare p v.password = false) →
      login s e p = { status := 400, message := "Invalid email or password", user := none }) ∧
    (∀ v : User, (login s e p).user = some v →
      login s e p = { status := 200, message := "Login successful", user := some v } ∧
      v ∈ s.users ∧ v.password ≠ p) := by
  refine ⟨?_, login_invalid_shape s e p, ?_⟩
  · rw [login_user_iff]
    constructor
    · rintro ⟨hf, hc⟩
      have hq : u.email = lowerStr e := by simpa using List.find?_some hf
      exact ⟨hq.symm, hc⟩
    · rintro ⟨hq, hc⟩
      exact ⟨find?_email_eq s u (lowerStr e) hu hq.symm hd, hc⟩
  · intro v hv
    obtain ⟨hf, hc⟩ := (login_user_iff s e p v).mp hv
    exact ⟨login_success_shape s e p v hv, List.mem_of_find?_eq_some hf,
      bcryptCompare_ne_raw hc⟩

/-- Claim C1 as frozen is false on the code: the submitted email here
matches the stored email case-insensitively (they are even identical) and
the submitted password's hash matches the stored hash, yet login fails
with 400 "Invalid email or password", because signup stored the email
with an uppercase letter and login's lookup lowercases the submitted
email before the exact-match query. -/
theorem login_claim_counterexample :
    uUpper ∈ sUpper.users ∧
    lowerStr "Jane@x.com" = lowerStr uUpper.email ∧
    bcryptCompare "pw1" uUpper.password = true ∧
    login sUpper "Jane@x.com" "pw1" =
      { status := 400, message := "Invalid email or password", user := none } := by
  decide

/-- Witness for `login_correct`: the mixed-case submitted email
"JANE@X.com" logs in as the account stored with the all-lowercase email
"jane@x.com". -/
theorem login_correct_witness :
    (login sLow "JANE@X.com" "pw1").user = some uLow :=
  ((login_correct sLow uLow "JANE@X.com" "pw1" (by decide) (by decide)).1).mpr (by decide)

/-- Claim C10: signup stores the submitted email exactly as provided with
no case normalisation, while login lowercases the submitted email before
its exact-match lookup; consequently an account whose stored email
contains an uppercase letter is never returned by login, whatever email
and password are submitted. -/
theorem signup_case_lockout :
    (∀ (s : Store) (salt : Nat) (fn ln e p r : String),
      (∀ u ∈ s.users, u.email ≠ e) →
      ∃ u : User, (signup s salt fn ln e p r).2.users = s.users ++ [u] ∧ u.email = e) ∧
    (∀ (s : Store) (u : User) (e p : String), u ∈ s.users →
      (∃ c ∈ u.email.data, c.isUpper = true) →
      (login s e p).user ≠ some u) := by
  constructor
  · intro s salt fn ln e p r h
    rw [signup_of_fresh s salt fn ln e p r h]
    exact ⟨_, rfl, rfl⟩
  · intro s u e p hu hup hlogin
    obtain ⟨hf, _⟩ := (login_user_iff s e p u).mp hlogin
    have hq : u.email = lowerStr e := by simpa using List.find?_some hf
    obtain ⟨c, hc, hcu⟩ := hup
    rw [hq] at hc
    simp only [lowerStr, List.mem_map] at hc
    obtain ⟨c', _, rfl⟩ := hc
    rw [toLower_not_upper c'] at hcu
    cases hcu

/-- Claim C4: signup with an email some stored account already carries
(exact match, whatever the other fields) fails with
400 "Email already exists" and creates no account, the store coming back
unchanged; otherwise a new account whose password field is the salted
hash of the given password is appended and the response is 201 carrying
only a message (the response record has no field besides status and
message, so no sensitive data is echoed). -/
theorem signup_correct (s : Store) (salt : Nat) (fn ln e p r : String) :
    ((∃ u ∈ s.users, u.email = e) →
      signup s salt fn ln e p r =
        ({ status := 400, message := "Email already exists" }, s)) ∧
    ((∀ u ∈ s.users, u.email ≠ e) →
      signup s salt fn ln e p r =
        ({ status := 201, message := "User created successfully" },
         { users := s.users ++
             [{ id := s.nextId, firstName := fn, lastName := ln, email := e,
                password := bcryptHash salt p, role := r }],
           messages := s.messages, nextId := s.nextId + 1 })) :=
  ⟨signup_of_dup s salt fn ln e p r, signup_of_fresh s salt fn ln e p r⟩

/-- Witness for `signup_correct`: a duplicate signup against the store
holding "jane@x.com" is rejected with the store unchanged, and a fresh
signup on the empty store creates exactly the hashed account. -/
theorem signup_correct_witness :
    signup sLow 5 "X" "Y" "jane@x.com" "q" "Parent" =
      ({ status := 400, message := "Email already exists" }, sLow) ∧
    signup emptyStore 5 "X" "Y" "new@x.com" "q" "Parent" =
      ({ status := 201, message := "User created successfully" },
       { users := [{ id := 0, firstName := "X", lastName := "Y", email := "new@x.com",
                     password := bcryptHash 5 "q", role := "Parent" }],
         messages := [], nextId := 1 }) := by
  constructor
  · exact (signup_correct sLow 5 "X" "Y" "jane@x.com" "q" "Parent").1 (by decide)
  · exact (signup_correct emptyStore 5 "X" "Y" "new@x.com" "q" "Parent").2 (by decide)

/-- Claim C5: `initializeDefaultUsers` is idempotent — a second run (with
any salts) returns the store of the first run unchanged; a run only ever
appends accounts, never deleting or overwriting stored ones, and leaves
messages alone; after a run each of the three fixed seed emails is
present; and running it twice from the empty store yields exactly 3
accounts, not 6. -/
theorem seeding_idempotent (salt salt2 : Nat) (s : Store) :
    initializeDefaultUsers salt2 (initializeDefaultUsers salt s) =
      initializeDefaultUsers salt s ∧
    (∃ ex, (initializeDefaultUsers salt s).users = s.users ++ ex ∧
      (initializeDefaultUsers salt s).messages = s.messages) ∧
    (∀ d ∈ defaultUsers,
      ((initializeDefaultUsers salt s).users.find? (fun u => u.email == d.email)).isSome) ∧
    (initializeDefaultUsers 1 (initializeDefaultUsers 0 emptyStore)).users.length = 3 := by
  refine ⟨?_, init_users_append salt s, ?_, by decide⟩
  · have hA := init_present salt s dAdmin (by simp [defaultUsers])
    have hT := init_present salt s dTeacher (by simp [defaultUsers])
    have hP := init_present salt s dParent (by simp [defaultUsers])
    rw [init_eq salt2]
    rw [seedOne_of_present salt2 _ dAdmin hA]
    rw [seedOne_of_present salt2 _ dTeacher hT]
    rw [seedOne_of_present salt2 _ dParent hP]
  · exact fun d hd => init_present salt s d hd

/-- Witness for `seeding_idempotent`: concrete double seeding of the
empty store, and presence of the admin seed account afterwards. -/
theorem seeding_idempotent_witness :
    initializeDefaultUsers 1 (initializeDefaultUsers 0 emptyStore) =
      initializeDefaultUsers 0 emptyStore ∧
    ((initializeDefaultUsers 0 emptyStore).users.find?
      (fun u => u.email == dAdmin.email)).isSome := by
  refine ⟨(seeding_idempotent 0 1 emptyStore).1, ?_⟩
  exact (seeding_idempotent 0 1 emptyStore).2.2.1 dAdmin (by decide)

/-- Witness for `signup_case_lockout`: signing up with "Jane@x.com"
stores that exact email, and the account stored with "Jane@x.com" cannot
be logged into even by submitting "jane@x.com" with the right password. -/
theorem signup_case_lockout_witness :
    (∃ u : User,
      (signup emptyStore 7 "Jane" "Doe" "Jane@x.com" "pw1" "Teacher").2.users =
        emptyStore.users ++ [u] ∧ u.email = "Jane@x.com") ∧
    (login sUpper "jane@x.com" "pw1").user ≠ some uUpper := by
  constructor
  · exact signup_case_lockout.1 emptyStore 7 "Jane" "Doe" "Jane@x.com" "pw1" "Teacher"
      (by decide)
  · exact signup_case_lockout.2 sUpper uUpper "jane@x.com" "pw1" (by decide) (by decide)

/-- Claim C6: for every pair of identifiers and every store,
`getMessages(A, B)` returns exactly the stored messages sent in either
direction between A and B — each expanded through `populateMsg` — and it
is symmetric in its two arguments (here even as lists, hence as sets). -/
theorem getMessages_correct (s : Store) (a b : Nat) :
    getMessages s a b = getMessages s b a ∧
    ∀ pm : PopulatedMessage, pm ∈ getMessages s a b ↔
      ∃ m ∈ s.messages,
        ((m.sender = a ∧ m.receiver = b) ∨ (m.sender = b ∧ m.receiver = a)) ∧
        pm = populateMsg s m := by
  constructor
  · unfold getMessages
    congr 1
    apply List.filter_congr
    intro m _
    unfold betweenPred
    rw [Bool.or_comm]
  · intro pm
    unfold getMessages
    rw [List.mem_map]
    constructor
    · rintro ⟨m, hm, rfl⟩
      rw [List.mem_filter] at hm
      refine ⟨m, hm.1, ?_, rfl⟩
      have hb := hm.2
      unfold betweenPred at hb
      simp only [Bool.or_eq_true, Bool.and_eq_true, beq_iff_eq] at hb
      exact hb
    · rintro ⟨m, hm, hcond, rfl⟩
      refine ⟨m, ?_, rfl⟩
      rw [List.mem_filter]
      refine ⟨hm, ?_⟩
      unfold betweenPred
      simp only [Bool.or_eq_true, Bool.and_eq_true, beq_iff_eq]
      exact hcond

/-- Witness for `getMessages_correct`: the two-user, two-message store,
where both directions are returned and the query is symmetric. -/
theorem getMessages_correct_witness :
    getMessages sChat 0 1 = getMessages sChat 1 0 ∧
    populateMsg sChat mAB ∈ getMessages sChat 0 1 := by
  refine ⟨(getMessages_correct sChat 0 1).1, ?_⟩
  exact ((getMessages_correct sChat 0 1).2 (populateMsg sChat mAB)).mpr
    ⟨mAB, by decide, by decide, rfl⟩

/-- Claim C7: `GET /chat/users` returns every stored account projected to
exactly the four public fields firstName, lastName, email and role — the
`PublicUser` record has no password field, so the hash is excluded from
every returned record — one output record per stored account. -/
theorem listAllUsers_correct (s : Store) :
    (∀ r : PublicUser, r ∈ listAllUsers s ↔ ∃ u ∈ s.users, r = projectUser u) ∧
    (listAllUsers s).length = s.users.length := by
  constructor
  · intro r
    unfold listAllUsers
    rw [List.mem_map]
    constructor
    · rintro ⟨u, hu, rfl⟩
      exact ⟨u, hu, rfl⟩
    · rintro ⟨u, hu, rfl⟩
      exact ⟨u, hu, rfl⟩
  · simp [listAllUsers]

/-- Witness for `listAllUsers_correct`: the projection of a concrete
stored account appears in the listing of the two-account store. -/
theorem listAllUsers_correct_witness :
    projectUser uLow ∈ listAllUsers sChat :=
  ((listAllUsers_correct sChat).1 (projectUser uLow)).mpr ⟨uLow, by decide, rfl⟩

/-- Claim C9: `GET /chat/teachers` and `GET /chat/parents` return, with
no field projection at all, exactly the full stored account records —
password hash field included, since the returned element is the stored
`User` record itself — whose role exactly equals "Teacher" respectively
"Parent" (unlike `GET /chat/users`, whose output type lacks the password
field). -/
theorem roleLists_unprojected (s : Store) :
    (∀ u : User, u ∈ getTeachers s ↔ (u ∈ s.users ∧ u.role = "Teacher")) ∧
    (∀ u : User, u ∈ getParents s ↔ (u ∈ s.users ∧ u.role = "Parent")) := by
  constructor
  · intro u
    unfold getTeachers
    rw [List.mem_filter]
    simp only [beq_iff_eq]
  · intro u
    unfold getParents
    rw [List.mem_filter]
    simp only [beq_iff_eq]

/-- Witness for `roleLists_unprojected`: the stored teacher record —
password hash field and all — is in the teachers listing, and likewise
the parent record. -/
theorem roleLists_unprojected_witness :
    uLow ∈ getTeachers sChat ∧ uBob ∈ getParents sChat :=
  ⟨((roleLists_unprojected sChat).1 uLow).mpr ⟨by decide, by decide⟩,
   ((roleLists_unprojected sChat).2 uBob).mpr ⟨by decide, by decide⟩⟩

/-- Claim C2: a `sendMessage` event whose persistence does not throw (the
throwing case is claim C3) persists a new message carrying the event's
fields and the store-generated timestamp — afterwards retrievable via
`getMessages` — and then broadcasts the `receiveMessage` payload to every
currently connected client (one emission per connected socket, whoever
the receiver is; the sender's socket is among them whenever it is
connected). -/
theorem sendMessage_persist_broadcast (s : Store) (connected : List Nat)
    (senderId receiverId : Nat) (content : String) (now : Nat) :
    (handleSendMessage s connected senderId receiverId content now false).store.messages =
      s.messages ++
        [{ id := s.nextId, sender := senderId, receiver := receiverId,
           content := content, timestamp := now }] ∧
    (handleSendMessage s connected senderId receiverId content now false).emits =
      connected.map (fun c =>
        (c, { senderId := senderId, receiverId := receiverId,
              content := content, timestamp := now })) ∧
    populateMsg (handleSendMessage s connected senderId receiverId content now false).store
        { id := s.nextId, sender := senderId, receiver := receiverId,
          content := content, timestamp := now } ∈
      getMessages (handleSendMessage s connected senderId receiverId content now false).store
        senderId receiverId := by
  refine ⟨rfl, rfl, ?_⟩
  unfold getMessages
  rw [List.mem_map]
  refine ⟨_, ?_, rfl⟩
  rw [List.mem_filter]
  constructor
  · show _ ∈ s.messages ++ [_]
    simp
  · unfold betweenPred
    simp

/-- Claim C3: when persisting the message throws, the error is logged,
nothing at all is emitted to any client (in particular no error reaches
the sending client and no `receiveMessage` broadcast happens), and the
store is unchanged; the error flag is set exactly when persistence
throws, so the broadcast is reached only after persistence succeeded. -/
theorem sendMessage_failure (s : Store) (connected : List Nat) (senderId receiverId : Nat)
    (content : String) (now : Nat) :
    handleSendMessage s connected senderId receiverId content now true =
      { store := s, emits := [], errorLogged := true } ∧
    ∀ saveFails : Bool,
      (handleSendMessage s connected senderId receiverId content now saveFails).errorLogged =
        saveFails := by
  refine ⟨rfl, ?_⟩
  intro sf
  cases sf
  · rfl
  · rfl

/-- Claim C8: no operation deletes or updates a stored account or
message — signup and seeding only ever append accounts and leave messages
untouched, `sendMessage` leaves accounts untouched and only ever appends
messages, and the connection lifecycle handlers leave the whole store
untouched.  (Login and the listing/retrieval endpoints are modelled as
pure functions of the store, so they cannot change it at all.) -/
theorem store_append_only :
    (∀ (s : Store) (salt : Nat) (fn ln e p r : String), ∃ ex,
      (signup s salt fn ln e p r).2.users = s.users ++ ex ∧
      (signup s salt fn ln e p r).2.messages = s.messages) ∧
    (∀ (salt : Nat) (s : Store), ∃ ex,
      (initializeDefaultUsers salt s).users = s.users ++ ex ∧
      (initializeDefaultUsers salt s).messages = s.messages) ∧
    (∀ (s : Store) (connected : List Nat) (senderId receiverId : Nat) (content : String)
        (now : Nat) (saveFails : Bool), ∃ ex,
      (handleSendMessage s connected senderId receiverId content now saveFails).store.users =
        s.users ∧
      (handleSendMessage s connected senderId receiverId content now saveFails).store.messages =
        s.messages ++ ex) ∧
    (∀ (st : RealtimeState) (sid : Nat), (handleConnect st sid).store = st.store) ∧
    (∀ (st : RealtimeState) (sid : Nat), (handleDisconnect st sid).store = st.store) := by
  refine ⟨?_, fun salt s => init_users_append salt s, ?_, fun st sid => rfl, fun st sid => rfl⟩
  · intro s salt fn ln e p r
    by_cases hdup : ∃ u ∈ s.users, u.email = e
    · rw [signup_of_dup s salt fn ln e p r hdup]
      exact ⟨[], by simp, rfl⟩
    · push_neg at hdup
      rw [signup_of_fresh s salt fn ln e p r hdup]
      exact ⟨_, rfl, rfl⟩
  · intro s connected senderId receiverId content now saveFails
    cases saveFails
    · exact ⟨_, rfl, rfl⟩
    · exact ⟨[], rfl, by simp [handleSendMessage]⟩

end Bilinapp
